import Mathlib

/-!
Verification development for the deferred-binding prototype (new_defer.py)
and the parameter registry (hypothesis/strategies/_internal/params.py).

Python values are modelled by the inductive `Val`; an `ExpectsParameter`
sentinel (a placeholder) is `Val.ph id`, where `id` stands for object
identity.  A slot of a `BoundArguments.arguments` dict holds either a plain
value, the tuple bound to a variadic-positional parameter, or the mapping
bound to a variadic-keyword parameter.  Python dicts are modelled as
insertion-ordered association lists with unique keys; `dict.update` keeps
the position of existing keys and appends new ones.

Python exceptions are modelled by `PyErr`, one constructor per distinct
error raised by the modelled code (the message text is fixed per
constructor in the source, so constructors stand for messages).
-/

namespace DeferSpec

inductive Val where
  | ph : Nat → Val
  | int : Int → Val
  | pynone : Val
deriving DecidableEq, Repr

inductive Slot where
  | val : Val → Slot
  | tup : List Val → Slot
  | map : List (String × Val) → Slot
deriving DecidableEq, Repr

/-- Ordered association list modelling a Python dict. -/
def lookup? {α : Type} : List (String × α) → String → Option α
  | [], _ => none
  | (k2, v) :: rest, k => if k2 = k then some v else lookup? rest k

def hasKey {α : Type} (d : List (String × α)) (k : String) : Bool :=
  (lookup? d k).isSome

/-- Assignment `d[k] = v`: replace in place if the key exists, else append. -/
def setKey {α : Type} : List (String × α) → String → α → List (String × α)
  | [], k, v => [(k, v)]
  | (k2, v2) :: rest, k, v =>
      if k2 = k then (k2, v) :: rest else (k2, v2) :: setKey rest k v

/-- Python `d.update(e)`: existing keys keep their position, new keys append. -/
def updAll {α : Type} (d e : List (String × α)) : List (String × α) :=
  e.foldl (fun acc kv => setKey acc kv.1 kv.2) d

/-- Python `d.pop(k)` restricted to the removal effect. -/
def popKey {α : Type} : List (String × α) → String → List (String × α)
  | [], _ => []
  | (k2, v) :: rest, k => if k2 = k then rest else (k2, v) :: popKey rest k

abbrev Args := List (String × Slot)

instance exceptDecEq {ε α : Type} [DecidableEq ε] [DecidableEq α] :
    DecidableEq (Except ε α)
  | .ok a, .ok b =>
      if h : a = b then isTrue (by rw [h])
      else isFalse (by intro hh; cases hh; exact h rfl)
  | .ok _, .error _ => isFalse (by intro hh; cases hh)
  | .error _, .ok _ => isFalse (by intro hh; cases hh)
  | .error e, .error f =>
      if h : e = f then isTrue (by rw [h])
      else isFalse (by intro hh; cases hh; exact h rfl)

inductive Kind where
  | posOnly
  | posOrKw
  | varPos
  | kwOnly
  | varKw
deriving DecidableEq, Repr

structure Param where
  name : String
  kind : Kind
  default : Option Val
deriving DecidableEq, Repr

abbrev Sig := List Param

/-- Exceptions raised by the modelled code, one constructor per message. -/
inductive PyErr where
  | tooManyPositional
  | multipleValues : String → PyErr
  | missingRequired : String → PyErr
  | unexpectedKeyword : String → PyErr
  | posOnlyAsKeyword : String → PyErr
  | requiresConcrete
  | tooManyForDeferred
  | missingForDeferred : List String → PyErr
  | popFromEmpty
  | alreadyRegistered : String → PyErr
  | notSetUp : String → PyErr
  | outsideScope : String → PyErr
  | alreadyActive
deriving DecidableEq, Repr

/-- Positional phase of CPython `Signature._bind`: consume positional values
against the parameter list left to right.  Returns the arguments assigned so
far together with the parameters left over for the keyword phase
(`parameters_ex` chained with the unconsumed iterator). -/
def bindPosPhase : List Param → List Val → List (String × Val) → Bool →
    Except PyErr (Args × List Param)
  | [], [], _, _ => .ok ([], [])
  | p :: rest, [], kw, strict =>
      if p.kind = Kind.varPos then .ok ([], rest)
      else if hasKey kw p.name then
        if p.kind = Kind.posOnly then .error (.posOnlyAsKeyword p.name)
        else .ok ([], p :: rest)
      else if p.kind = Kind.varKw ∨ p.kind = Kind.kwOnly then .ok ([], p :: rest)
      else if p.default.isSome then .ok ([], p :: rest)
      else if strict then .error (.missingRequired p.name)
      else .ok ([], p :: rest)
  | [], _ :: _, _, _ => .error .tooManyPositional
  | p :: restP, v :: restV, kw, strict =>
      if p.kind = Kind.kwOnly ∨ p.kind = Kind.varKw then .error .tooManyPositional
      else if p.kind = Kind.varPos then .ok ([(p.name, Slot.tup (v :: restV))], restP)
      else if hasKey kw p.name ∧ p.kind ≠ Kind.posOnly then
        .error (.multipleValues p.name)
      else
        match bindPosPhase restP restV kw strict with
        | .error e => .error e
        | .ok pr => .ok ((p.name, Slot.val v) :: pr.1, pr.2)

/-- Keyword phase of CPython `Signature._bind`.  Returns the arguments
assigned from keywords (in parameter order), the variadic-keyword parameter
name if one was seen, and the keywords left unconsumed. -/
def bindKwPhase : List Param → List (String × Val) → Bool →
    Except PyErr (Args × Option String × List (String × Val))
  | [], kw, _ => .ok ([], none, kw)
  | p :: rest, kw, strict =>
      if p.kind = Kind.varKw then
        match bindKwPhase rest kw strict with
        | .error e => .error e
        | .ok tr => .ok (tr.1, some p.name, tr.2.2)
      else if p.kind = Kind.varPos then bindKwPhase rest kw strict
      else
        match lookup? kw p.name with
        | none =>
            if strict ∧ p.default.isNone then .error (.missingRequired p.name)
            else bindKwPhase rest kw strict
        | some v =>
            if p.kind = Kind.posOnly then .error (.posOnlyAsKeyword p.name)
            else
              match bindKwPhase rest (popKey kw p.name) strict with
              | .error e => .error e
              | .ok tr => .ok ((p.name, Slot.val v) :: tr.1, tr.2.1, tr.2.2)

/-- CPython `Signature._bind`: `strict = true` models `sig.bind`,
`strict = false` models `sig.bind_partial`.  Leftover keywords go into the
variadic-keyword slot when one exists, else raise. -/
def bind (sig : Sig) (pos : List Val) (kw : List (String × Val)) (strict : Bool) :
    Except PyErr Args :=
  match bindPosPhase sig pos kw strict with
  | .error e => .error e
  | .ok pr =>
      match bindKwPhase pr.2 kw strict with
      | .error e => .error e
      | .ok tr =>
          if tr.2.2.isEmpty then .ok (pr.1 ++ tr.1)
          else
            match tr.2.1 with
            | some n => .ok ((pr.1 ++ tr.1) ++ [(n, Slot.map tr.2.2)])
            | none =>
                match tr.2.2 with
                | [] => .ok (pr.1 ++ tr.1)
                | (k, _) :: _ => .error (.unexpectedKeyword k)

/-- Python `_is_placeholder(v)` = `isinstance(v, ExpectsParameter)`, applied
to a raw value. -/
def isPH : Val → Bool
  | .ph _ => true
  | _ => false

/-- Python `_is_placeholder` applied to a slot of `arguments`: a tuple or a
dict stored in a variadic slot is never itself an `ExpectsParameter`. -/
def is_placeholder : Slot → Bool
  | .val v => isPH v
  | _ => false

/-- Python `_has_placeholders(bound)`: `any(_is_placeholder(v) for v in
bound.arguments.values())` — only top-level slot values are inspected. -/
def has_placeholders (args : Args) : Bool :=
  args.any (fun kv => is_placeholder kv.2)

/-- The predicate the spec describes: a placeholder anywhere in a slot,
including inside the variadic-positional sequence and the variadic-keyword
mapping.  Used to compare the spec against `has_placeholders`. -/
def slotDeepPH : Slot → Bool
  | .val v => isPH v
  | .tup l => l.any isPH
  | .map m => m.any (fun kv => isPH kv.2)

def spec_has_placeholders (args : Args) : Bool :=
  args.any (fun kv => slotDeepPH kv.2)

/-- Python `list.pop()` on the supplement: split off the LAST element. -/
def splitLast : List Val → Option (List Val × Val)
  | [] => none
  | [a] => some ([], a)
  | a :: b :: rest =>
      match splitLast (b :: rest) with
      | none => none
      | some (init, last) => some (a :: init, last)

/-- The list comprehension
`[args.pop() if _is_placeholder(a) else a for a in self.arguments[...]]`:
walk the (post-update) variadic tuple left to right, replacing each
placeholder by popping the LAST entry of the supplement list; `none` models
the `IndexError` from popping an empty list. -/
def fillArgs : List Val → List Val → Option (List Val)
  | [], _ => some []
  | a :: rest, supp =>
      if isPH a then
        match splitLast supp with
        | none => none
        | some (init, last) =>
            match fillArgs rest init with
            | none => none
            | some l => some (last :: l)
      else
        match fillArgs rest supp with
        | none => none
        | some l => some (a :: l)

/-- Read a variadic-positional slot, with `dict.pop(k, ())` default. -/
def getTup : Option Slot → List Val
  | some (.tup l) => l
  | _ => []

/-- Read a variadic-keyword slot, with `dict.pop(k, \x7b\x7d)` default. -/
def getMap : Option Slot → List (String × Val)
  | some (.map m) => m
  | _ => []

/-- Second `if` of `MyBound.resolve_placeholders`: merge the supplement's
variadic-keyword mapping into the (post-update) dict.  Since the update has
already installed the supplement's mapping object when the supplement has
one, updating the current value with the supplement is exactly what the
Python objects compute. -/
def kwargsStep (d : Args) (extraArgs : Args) : Args :=
  if hasKey d "kwargs" then
    let kw := getMap (lookup? extraArgs "kwargs")
    setKey d "kwargs" (Slot.map (updAll (getMap (lookup? d "kwargs")) kw))
  else d

/-- Python `MyBound.resolve_placeholders(self, bound)` where `selfArgs` is
`self.arguments` and `extraArgs` is `bound.arguments`.  The method first
runs `self.arguments.update(bound.arguments)` and then rewrites the
variadic slots; it mutates `self.arguments` in place, so the returned dict
is its state when the method returns or raises (`some PyErr.popFromEmpty`
models the `IndexError` raised by `args.pop()` after the `update` has
already been applied). -/
def resolve_placeholders (selfArgs extraArgs : Args) : Args × Option PyErr :=
  if hasKey (updAll selfArgs extraArgs) "args" then
    match fillArgs (getTup (lookup? (updAll selfArgs extraArgs) "args"))
        (getTup (lookup? extraArgs "args")) with
    | none => (updAll selfArgs extraArgs, some PyErr.popFromEmpty)
    | some newl =>
        (kwargsStep (setKey (updAll selfArgs extraArgs) "args" (Slot.tup newl))
          extraArgs, none)
  else (kwargsStep (updAll selfArgs extraArgs) extraArgs, none)

/-- Names listed in the missing-argument error:
`[name for name, val in self._bound.arguments.items() if _is_placeholder(val)]`
evaluated on the (mutated, aliased) stored dict. -/
def missingNames (d : Args) : List String :=
  (d.filter (fun kv => is_placeholder kv.2)).map Prod.fst

/-- CPython `BoundArguments.args`: positional tuple for dispatch. -/
def boundArgs : Sig → Args → List Val
  | [], _ => []
  | p :: rest, d =>
      if p.kind = Kind.varKw ∨ p.kind = Kind.kwOnly then []
      else
        match lookup? d p.name with
        | none => []
        | some s =>
            if p.kind = Kind.varPos then
              (match s with | .tup l => l | _ => []) ++ boundArgs rest d
            else
              (match s with | .val v => [v] | _ => []) ++ boundArgs rest d

/-- CPython `BoundArguments.kwargs`: keyword mapping for dispatch.  The flag
records whether the positional prefix has ended. -/
def boundKwargsAux : Sig → Args → Bool → List (String × Val)
  | [], _, _ => []
  | p :: rest, d, started =>
      if ¬ started ∧ ¬ (p.kind = Kind.varKw ∨ p.kind = Kind.kwOnly) then
        if hasKey d p.name then boundKwargsAux rest d false
        else boundKwargsAux rest d true
      else
        match lookup? d p.name with
        | none => boundKwargsAux rest d true
        | some s =>
            if p.kind = Kind.varKw then
              (match s with | .map m => m | _ => []) ++ boundKwargsAux rest d true
            else
              (match s with | .val v => [(p.name, v)] | _ => []) ++
                boundKwargsAux rest d true

def boundKwargs (sig : Sig) (d : Args) : List (String × Val) :=
  boundKwargsAux sig d false

/-- Outcome of a successful completion: the underlying `fn` is invoked with
these positional and keyword arguments. -/
inductive DCResult where
  | dispatch : List Val → List (String × Val) → DCResult
deriving DecidableEq, Repr

/-- Body of `_DeferredCall.__call__` after `sig.bind_partial` has produced
the supplement `extra`.  `st` is `self._bound.arguments`.  Because
`MyBound.copy` passes `self.arguments` itself to the constructor,
`completed_bound.arguments` and `self._bound.arguments` are one dict: the
second component of the result is that dict when the call returns or
raises, and the length guard compares the dict with itself. -/
def complete_with (sig : Sig) (st : Args) (extra : Args) :
    Except PyErr DCResult × Args :=
  if has_placeholders extra then (.error PyErr.requiresConcrete, st)
  else
    match resolve_placeholders st extra with
    | (d, some e) => (.error e, d)
    | (d, none) =>
        if d.length > d.length then (.error PyErr.tooManyForDeferred, d)
        else if has_placeholders d then
          (.error (PyErr.missingForDeferred (missingNames d)), d)
        else (.ok (DCResult.dispatch (boundArgs sig d) (boundKwargs sig d)), d)

/-- Python `_DeferredCall.__call__(*args, **kwargs)`: bind the completion
arguments with `sig.bind_partial`, then merge and dispatch.  Returns the
outcome together with the state of the stored arguments dict afterwards. -/
def deferred_call (sig : Sig) (st : Args) (pos : List Val)
    (kw : List (String × Val)) : Except PyErr DCResult × Args :=
  match bind sig pos kw false with
  | .error e => (.error e, st)
  | .ok extra => complete_with sig st extra

/-- Result of calling the wrapped callable produced by `parametrize(fn)`:
either `fn` is invoked at once with exactly the original arguments, or a
`_DeferredCall` holding the bound snapshot is returned. -/
inductive WrapResult where
  | call : List Val → List (String × Val) → WrapResult
  | deferred : Args → WrapResult
deriving DecidableEq, Repr

/-- Python `wrapper(*args, **kwargs)` inside `parametrize`. -/
def wrapper (sig : Sig) (pos : List Val) (kw : List (String × Val)) :
    Except PyErr WrapResult :=
  match bind sig pos kw true with
  | .error e => .error e
  | .ok bound =>
      if has_placeholders bound then .ok (WrapResult.deferred bound)
      else .ok (WrapResult.call pos kw)

end DeferSpec

namespace ParamsSpec

open DeferSpec (Val lookup? hasKey setKey updAll popKey)

/-- Stored registry entry: either a `SearchStrategy` supplied by the caller
or a plain value wrapped by `just(...)` at registration time. -/
inductive Strat where
  | strategy : Val → Strat
  | just : Val → Strat
deriving DecidableEq, Repr

/-- Input entry of the two construction mappings: a `SearchStrategy` or a
plain (non-strategy) value. -/
inductive RegVal where
  | strat : Val → RegVal
  | plain : Val → RegVal
deriving DecidableEq, Repr

abbrev StratDict := List (String × Strat)

/-- Python `ParamStrategyRegistry._register_param_value`: add a strategy
under the name, refusing duplicates with `KeyError`. -/
def register_param_value (d : StratDict) (name : String) (s : Strat) :
    Except DeferSpec.PyErr StratDict :=
  if hasKey d name then .error (DeferSpec.PyErr.alreadyRegistered name)
  else .ok (d ++ [(name, s)])

/-- Python `ParamStrategyRegistry._register_param_values(kwargs,
given_kwargs)`: the two mappings are first merged into one dict
`\x7b**given_kwargs, **kwargs\x7d` (entries of `kwargs` override entries of
`given_kwargs` at the same name), then each entry of the merged dict is
registered, wrapping non-strategies with `just`. -/
def register_param_values (kwargs given_kwargs : List (String × RegVal)) :
    Except DeferSpec.PyErr StratDict :=
  let maybe_strategies := updAll given_kwargs kwargs
  maybe_strategies.foldlM
    (fun d kv =>
      let s := match kv.2 with
        | RegVal.strat v => Strat.strategy v
        | RegVal.plain v => Strat.just v
      register_param_value d kv.1 s)
    []

/-- A `ParamStrategyRegistry` instance; `oid` models object identity. -/
structure Registry where
  oid : Nat
  strategies : StratDict
deriving DecidableEq, Repr

/-- The class attribute `_current_registry`. -/
abbrev RegState := Option Registry

/-- Python `ParamStrategyRegistry.__enter__`: install this instance when the
class slot is falsy (`None`), else raise; on the error path the slot is left
untouched (the exception aborts the `with` statement before any state
change). -/
def registryEnter (cur : RegState) (self : Registry) :
    Except DeferSpec.PyErr RegState :=
  match cur with
  | none => .ok (some self)
  | some _ => .error DeferSpec.PyErr.alreadyActive

/-- Python `ParamStrategyRegistry.__exit__`: unconditionally clear the class
slot, whatever instance the method is invoked on and whatever the slot
holds (also reached when the enclosed scope raised, per the `with`
protocol). -/
def registryExit (_cur : RegState) (_self : Registry) : RegState :=
  none

/-- Python `ParamStrategyRegistry.get`: `cls._current_registry._strategies[name]`
with `KeyError` mapped to the not-set-up error and `AttributeError` (slot is
`None`) mapped to the outside-scope error. -/
def registryGet (cur : RegState) (name : String) :
    Except DeferSpec.PyErr Strat :=
  match cur with
  | none => .error (DeferSpec.PyErr.outsideScope name)
  | some r =>
      match lookup? r.strategies name with
      | none => .error (DeferSpec.PyErr.notSetUp name)
      | some s => .ok s

end ParamsSpec

namespace DeferSpec

/-- Scenario A signature `(x, *args, other=None)`. -/
def sigA : Sig :=
  [⟨"x", Kind.posOrKw, none⟩, ⟨"args", Kind.varPos, none⟩,
   ⟨"other", Kind.kwOnly, some Val.pynone⟩]

/-- Snapshot stored by `wrap(f)(Placeholder(), 1, Placeholder(), other=3)`
under `sigA`. -/
def baseA : Args :=
  [("x", Slot.val (Val.ph 0)), ("args", Slot.tup [Val.int 1, Val.ph 1]),
   ("other", Slot.val (Val.int 3))]

/-- Signature `(x, *args)`. -/
def sigX : Sig := [⟨"x", Kind.posOrKw, none⟩, ⟨"args", Kind.varPos, none⟩]

/-- Scenario C signature `(a, b)`. -/
def sigAB : Sig := [⟨"a", Kind.posOrKw, none⟩, ⟨"b", Kind.posOrKw, none⟩]

/-- Scenario C snapshot stored by `wrap(f)(Placeholder(), 2)`. -/
def baseAB : Args := [("a", Slot.val (Val.ph 0)), ("b", Slot.val (Val.int 2))]

/-- Signature `(a, b, c)`. -/
def sigABC : Sig :=
  [⟨"a", Kind.posOrKw, none⟩, ⟨"b", Kind.posOrKw, none⟩, ⟨"c", Kind.posOrKw, none⟩]

/-- Snapshot stored by `wrap(f)(Placeholder(), 2, Placeholder())` under
`sigABC`. -/
def baseABC : Args :=
  [("a", Slot.val (Val.ph 0)), ("b", Slot.val (Val.int 2)),
   ("c", Slot.val (Val.ph 1))]

/-- Stored dict of the Scenario-ABC deferred call after the failed
completion attempt with `(1, 99)`. -/
def mutatedABC : Args :=
  [("a", Slot.val (Val.int 1)), ("b", Slot.val (Val.int 99)),
   ("c", Slot.val (Val.ph 1))]

/-- Snapshot stored by `wrap(f)(Placeholder(), Placeholder(), Placeholder())`
under `sigX`. -/
def base6 : Args :=
  [("x", Slot.val (Val.ph 0)), ("args", Slot.tup [Val.ph 1, Val.ph 2])]

/-- Snapshot stored by `wrap(f)(Placeholder(), 1)` under `sigX`. -/
def base1 : Args := [("x", Slot.val (Val.ph 0)), ("args", Slot.tup [Val.int 1])]

/-- True exactly on the too-many-arguments completion error. -/
def isTooManyErr : Except PyErr DCResult → Bool
  | .error PyErr.tooManyForDeferred => true
  | _ => false

/-- True exactly on the missing-argument(s) completion error. -/
def isMissingErr : Except PyErr DCResult → Bool
  | .error (PyErr.missingForDeferred _) => true
  | _ => false

/-- Positional values free of placeholders. -/
def concreteVals (l : List Val) : Bool := l.all (fun v => !isPH v)

/-- Keyword values free of placeholders. -/
def concreteKw (kw : List (String × Val)) : Bool := kw.all (fun kv => !isPH kv.2)

lemma lookup_concrete {kw : List (String × Val)} {k : String} {v : Val}
    (hall : concreteKw kw = true) (hl : lookup? kw k = some v) :
    isPH v = false := by
  induction kw with
  | nil => cases hl
  | cons hd tl ih =>
      simp only [concreteKw, List.all_cons, Bool.and_eq_true] at hall
      simp only [lookup?] at hl
      by_cases hk : hd.1 = k
      · rw [if_pos hk] at hl
        cases hl
        simpa using hall.1
      · rw [if_neg hk] at hl
        exact ih hall.2 hl

lemma popKey_concrete {kw : List (String × Val)} {k : String}
    (hall : concreteKw kw = true) : concreteKw (popKey kw k) = true := by
  induction kw with
  | nil => rfl
  | cons hd tl ih =>
      simp only [concreteKw, List.all_cons, Bool.and_eq_true] at hall
      simp only [popKey]
      by_cases hk : hd.1 = k
      · rw [if_pos hk]
        exact hall.2
      · rw [if_neg hk]
        simp only [concreteKw, List.all_cons, Bool.and_eq_true]
        exact ⟨hall.1, ih hall.2⟩

lemma has_placeholders_append (a b : Args) :
    has_placeholders (a ++ b) = (has_placeholders a || has_placeholders b) := by
  simp [has_placeholders, List.any_append]

lemma bindPosPhase_concrete (pos : List Val) (ps : List Param)
    (kw : List (String × Val)) (strict : Bool) (out : Args × List Param)
    (hpos : concreteVals pos = true)
    (h : bindPosPhase ps pos kw strict = .ok out) :
    has_placeholders out.1 = false := by
  induction pos generalizing ps out with
  | nil =>
      cases ps with
      | nil =>
          simp only [bindPosPhase] at h
          cases h
          rfl
      | cons p rest =>
          simp only [bindPosPhase] at h
          repeat' split at h
          all_goals (cases h; try rfl)
  | cons v restV ih =>
      simp only [concreteVals, List.all_cons, Bool.and_eq_true] at hpos
      cases ps with
      | nil =>
          simp only [bindPosPhase] at h
          cases h
      | cons p restP =>
          simp only [bindPosPhase] at h
          split at h
          · cases h
          · split at h
            · cases h
              simp [has_placeholders, is_placeholder]
            · split at h
              · cases h
              · cases hrec : bindPosPhase restP restV kw strict with
                | error e => rw [hrec] at h; cases h
                | ok out0 =>
                    obtain ⟨args0, rem0⟩ := out0
                    rw [hrec] at h
                    cases h
                    have ht := ih restP (args0, rem0) hpos.2 hrec
                    simp only [has_placeholders, List.any_cons, is_placeholder,
                      Bool.or_eq_false_iff] at ht ⊢
                    exact ⟨by simpa using hpos.1, ht⟩

lemma is_placeholder_tup (l : List Val) : is_placeholder (Slot.tup l) = false := rfl

lemma is_placeholder_map (m : List (String × Val)) :
    is_placeholder (Slot.map m) = false := rfl

lemma bindKwPhase_concrete (ps : List Param) (kw : List (String × Val))
    (strict : Bool) (out : Args × Option String × List (String × Val))
    (hkw : concreteKw kw = true) (h : bindKwPhase ps kw strict = .ok out) :
    has_placeholders out.1 = false := by
  induction ps generalizing kw out with
  | nil =>
      simp only [bindKwPhase] at h
      cases h
      rfl
  | cons p rest ih =>
      simp only [bindKwPhase] at h
      by_cases c1 : p.kind = Kind.varKw
      · rw [if_pos c1] at h
        cases hrec : bindKwPhase rest kw strict with
        | error e => rw [hrec] at h; cases h
        | ok out0 =>
            rw [hrec] at h
            cases h
            exact ih kw out0 hkw hrec
      · rw [if_neg c1] at h
        by_cases c2 : p.kind = Kind.varPos
        · rw [if_pos c2] at h
          exact ih kw out hkw h
        · rw [if_neg c2] at h
          cases hl : lookup? kw p.name with
          | none =>
              rw [hl] at h
              simp only [] at h
              by_cases c3 : strict = true ∧ p.default.isNone = true
              · rw [if_pos c3] at h; cases h
              · rw [if_neg c3] at h
                exact ih kw out hkw h
          | some v =>
              rw [hl] at h
              simp only [] at h
              by_cases c4 : p.kind = Kind.posOnly
              · rw [if_pos c4] at h; cases h
              · rw [if_neg c4] at h
                cases hrec : bindKwPhase rest (popKey kw p.name) strict with
                | error e => rw [hrec] at h; cases h
                | ok out0 =>
                    rw [hrec] at h
                    cases h
                    have hv := lookup_concrete hkw hl
                    have ht := ih (popKey kw p.name) out0 (popKey_concrete hkw) hrec
                    show has_placeholders ((p.name, Slot.val v) :: out0.1) = false
                    simp only [has_placeholders, List.any_cons, is_placeholder,
                      Bool.or_eq_false_iff] at ht ⊢
                    exact ⟨hv, ht⟩

lemma bind_concrete (sig : Sig) (pos : List Val) (kw : List (String × Val))
    (strict : Bool) (b : Args) (hpos : concreteVals pos = true)
    (hkw : concreteKw kw = true) (h : bind sig pos kw strict = .ok b) :
    has_placeholders b = false := by
  unfold bind at h
  cases h1 : bindPosPhase sig pos kw strict with
  | error e => rw [h1] at h; cases h
  | ok pr =>
      rw [h1] at h
      simp only [] at h
      cases h2 : bindKwPhase pr.2 kw strict with
      | error e => rw [h2] at h; cases h
      | ok tr =>
          rw [h2] at h
          simp only [] at h
          have hP := bindPosPhase_concrete pos sig kw strict pr hpos h1
          have hK := bindKwPhase_concrete pr.2 kw strict tr hkw h2
          by_cases hr : tr.2.2.isEmpty = true
          · rw [if_pos hr] at h
            cases h
            rw [has_placeholders_append, hP, hK]
            rfl
          · rw [if_neg hr] at h
            cases hv : tr.2.1 with
            | some n =>
                rw [hv] at h
                simp only [] at h
                cases h
                rw [has_placeholders_append, has_placeholders_append, hP, hK]
                rfl
            | none =>
                rw [hv] at h
                simp only [] at h
                cases ht : tr.2.2 with
                | nil =>
                    rw [ht] at h
                    cases h
                    rw [has_placeholders_append, hP, hK]
                    rfl
                | cons hd tl =>
                    rw [ht] at h
                    obtain ⟨k0, v0⟩ := hd
                    cases h

/-- The error component of `resolve_placeholders` is `popFromEmpty` when
present: the method itself raises nothing else. -/
lemma resolve_err_shape (selfArgs extraArgs : Args) :
    (resolve_placeholders selfArgs extraArgs).2 = none ∨
    (resolve_placeholders selfArgs extraArgs).2 = some PyErr.popFromEmpty := by
  unfold resolve_placeholders
  split
  · split
    · exact Or.inr rfl
    · exact Or.inl rfl
  · exact Or.inl rfl

/-- The guard `len(completed_bound.arguments) > len(self._bound.arguments)`
compares one dict with itself (`copy()` aliases the dict), so the
too-many-arguments error is unreachable for every completion. -/
lemma complete_with_no_too_many (sig : Sig) (st extra : Args) :
    isTooManyErr (complete_with sig st extra).1 = false := by
  unfold complete_with
  split
  · rfl
  · rcases hres : resolve_placeholders st extra with ⟨d, oe⟩
    rcases oe with _ | e
    · simp only []
      rw [if_neg (Nat.lt_irrefl d.length)]
      split
      · rfl
      · rfl
    · simp only []
      rcases resolve_err_shape st extra with hsh | hsh
      · rw [hres] at hsh
        simp at hsh
      · rw [hres] at hsh
        simp at hsh
        subst hsh
        rfl

/-- C1 counterexample: for the signature `(x, *args, other=None)` with the
Deferred Call created from `(Placeholder(), 1, Placeholder(), other=3)`,
completing with `(0, 5)` dispatches `f(0, 5, other=3)` — not
`f(0, 1, 5, other=3)` as the claim states: the concrete `1` in the base
variadic slot is lost because `self.arguments.update(bound.arguments)`
replaces the whole slot by the supplement sequence. -/
theorem C1_counterexample :
    (deferred_call sigA baseA [Val.int 0, Val.int 5] []).1 =
      .ok (DCResult.dispatch [Val.int 0, Val.int 5] [("other", Val.int 3)]) ∧
    decide ((deferred_call sigA baseA [Val.int 0, Val.int 5] []).1 =
      .ok (DCResult.dispatch [Val.int 0, Val.int 1, Val.int 5]
        [("other", Val.int 3)])) = false := by
  constructor
  · rfl
  · rfl

/-- C1 amended: `wrap(f)(Placeholder(), 1, Placeholder(), other=3)` returns
a Deferred Call whose snapshot leaves `x` and the second variadic entry
unresolved; completing with `(0, 5)` merges to `x=0`, `args=(5,)`,
`other=3` and dispatches `f(0, 5, other=3)`: during merge the supplement's
variadic-positional sequence replaces the base's variadic slot wholesale
(the dict update overwrites the slot before placeholder replacement runs),
so concrete values already present in that slot are NOT retained and no
positional left-to-right fill of the base occurs. -/
theorem C1_amended :
    wrapper sigA [Val.ph 0, Val.int 1, Val.ph 1] [("other", Val.int 3)] =
      .ok (WrapResult.deferred baseA) ∧
    deferred_call sigA baseA [Val.int 0, Val.int 5] [] =
      (.ok (DCResult.dispatch [Val.int 0, Val.int 5] [("other", Val.int 3)]),
       [("x", Slot.val (Val.int 0)), ("args", Slot.tup [Val.int 5]),
        ("other", Slot.val (Val.int 3))]) := by
  constructor
  · rfl
  · rfl

/-- C2 counterexample: for the signature `(x, *args)`, the call
`wrap(f)(1, Placeholder())` binds a placeholder inside the
variadic-positional sequence (the spec-described deep check reports it),
yet `_has_placeholders` misses it and `f` is invoked immediately, refuting
the claim that any placeholder anywhere defers the call. -/
theorem C2_counterexample :
    bind sigX [Val.int 1, Val.ph 0] [] true =
      .ok [("x", Slot.val (Val.int 1)), ("args", Slot.tup [Val.ph 0])] ∧
    spec_has_placeholders
      [("x", Slot.val (Val.int 1)), ("args", Slot.tup [Val.ph 0])] = true ∧
    has_placeholders
      [("x", Slot.val (Val.int 1)), ("args", Slot.tup [Val.ph 0])] = false ∧
    wrapper sigX [Val.int 1, Val.ph 0] [] =
      .ok (WrapResult.call [Val.int 1, Val.ph 0] []) := by
  refine ⟨rfl, rfl, rfl, rfl⟩

/-- C2 amended: `_has_placeholders` inspects only top-level slot values, so
the wrapped callable defers exactly when some top-level slot of the bound
arguments is a Placeholder; a placeholder occurring only inside the
variadic-positional sequence or variadic-keyword mapping is not detected
and `f` is invoked immediately. -/
theorem C2_amended (sig : Sig) (pos : List Val) (kw : List (String × Val))
    (b : Args) (h : bind sig pos kw true = .ok b) :
    (wrapper sig pos kw = .ok (WrapResult.deferred b) ↔
      has_placeholders b = true) ∧
    (has_placeholders b = false →
      wrapper sig pos kw = .ok (WrapResult.call pos kw)) := by
  unfold wrapper
  rw [h]
  simp only []
  cases hb : has_placeholders b <;> simp [hb]

/-- C2 amended, witnessed at the inner-placeholder input: the bound
arguments of `wrap(f)(1, Placeholder())` under `(x, *args)` have no
top-level placeholder, so the call is dispatched immediately. -/
theorem C2_amended_witness :
    wrapper sigX [Val.int 1, Val.ph 0] [] =
      .ok (WrapResult.call [Val.int 1, Val.ph 0] []) :=
  (C2_amended sigX [Val.int 1, Val.ph 0] []
    [("x", Slot.val (Val.int 1)), ("args", Slot.tup [Val.ph 0])]
    (by decide)).2 (by decide)

/-- C3 counterexample: Scenario C — signature `(a, b)`, Deferred Call from
`(Placeholder(), 2)`, completed with `(1, 2)` — does NOT raise the
too-many-arguments error: it dispatches `f(1, 2)`, silently overwriting
the already-concrete `b`. -/
theorem C3_counterexample :
    (deferred_call sigAB baseAB [Val.int 1, Val.int 2] []).1 =
      .ok (DCResult.dispatch [Val.int 1, Val.int 2] []) ∧
    isTooManyErr (deferred_call sigAB baseAB [Val.int 1, Val.int 2] []).1 =
      false := by
  refine ⟨rfl, rfl⟩

/-- C3 amended: supplying a value for an already-concrete slot at
completion silently overwrites it (the dict update wins); the
too-many-arguments guard compares the length of the completed dict with
itself, since `copy()` aliases the arguments dict, so that error is
unreachable for every completion; in particular Scenario C dispatches
`f(1, 2)` with the stored dict overwritten to `a=1, b=2`. -/
theorem C3_amended :
    (∀ (sig : Sig) (st extra : Args),
      isTooManyErr (complete_with sig st extra).1 = false) ∧
    deferred_call sigAB baseAB [Val.int 1, Val.int 2] [] =
      (.ok (DCResult.dispatch [Val.int 1, Val.int 2] []),
       [("a", Slot.val (Val.int 1)), ("b", Slot.val (Val.int 2))]) :=
  ⟨complete_with_no_too_many, rfl⟩

/-- C4: the code contradicts the claim (and the shallow-copy comment in
`MyBound.copy`): a failed completion attempt mutates the stored Bound
Arguments, because `copy()` hands the very same `arguments` dict to the new
`MyBound` and `resolve_placeholders` updates it in place.  For signature
`(a, b, c)` and the Deferred Call from `(Placeholder(), 2, Placeholder())`,
the failed attempt `(1, 99)` raises missing-argument(s) for `c` but leaves
the stored dict as `a=1, b=99, c=Placeholder`; the subsequent correct
completion `(5, c=7)` then dispatches `f(5, 99, 7)`, whereas the same
completion on the unmutated snapshot dispatches `f(5, 2, 7)`. -/
theorem C4_code_behavior :
    deferred_call sigABC baseABC [Val.int 1, Val.int 99] [] =
      (.error (PyErr.missingForDeferred ["c"]), mutatedABC) ∧
    lookup? baseABC "b" = some (Slot.val (Val.int 2)) ∧
    lookup? mutatedABC "b" = some (Slot.val (Val.int 99)) ∧
    (deferred_call sigABC mutatedABC [Val.int 5] [("c", Val.int 7)]).1 =
      .ok (DCResult.dispatch [Val.int 5, Val.int 99, Val.int 7] []) ∧
    (deferred_call sigABC baseABC [Val.int 5] [("c", Val.int 7)]).1 =
      .ok (DCResult.dispatch [Val.int 5, Val.int 2, Val.int 7] []) := by
  refine ⟨rfl, rfl, rfl, rfl, rfl⟩

/-- C5: pass-through — when the arguments bind successfully under the
strict `sig.bind` and contain no Placeholder, the wrapper invokes `fn`
immediately with exactly the original positional and keyword arguments
(hence the return value or raised error of `f` passes through unchanged),
and no Deferred Call is produced. -/
theorem C5_pass_through (sig : Sig) (pos : List Val) (kw : List (String × Val))
    (b : Args) (hpos : concreteVals pos = true) (hkw : concreteKw kw = true)
    (hb : bind sig pos kw true = .ok b) :
    wrapper sig pos kw = .ok (WrapResult.call pos kw) := by
  unfold wrapper
  rw [hb]
  simp only []
  rw [bind_concrete sig pos kw true b hpos hkw hb]
  rfl

/-- C5 witnessed at signature `(a, b)` with the concrete call `(1, 2)`. -/
theorem C5_pass_through_witness :
    wrapper sigAB [Val.int 1, Val.int 2] [] =
      .ok (WrapResult.call [Val.int 1, Val.int 2] []) :=
  C5_pass_through sigAB [Val.int 1, Val.int 2] []
    [("a", Slot.val (Val.int 1)), ("b", Slot.val (Val.int 2))]
    (by decide) (by decide) (by decide)

/-- C6 counterexample: for signature `(x, *args)` and the Deferred Call
from `(Placeholder(), Placeholder(), Placeholder())`, completing with
`(0)` — zero variadic replacements for two remaining placeholders — raises
the IndexError from `args.pop()` on an empty list, not the claimed
missing-argument(s) error; and completing with `(0, 5)` — one replacement
for two placeholders — dispatches `f(0, 5)` instead of failing at all. -/
theorem C6_counterexample :
    (deferred_call sigX base6 [Val.int 0] []).1 = .error PyErr.popFromEmpty ∧
    isMissingErr (deferred_call sigX base6 [Val.int 0] []).1 = false ∧
    (deferred_call sigX base6 [Val.int 0, Val.int 5] []).1 =
      .ok (DCResult.dispatch [Val.int 0, Val.int 5] []) := by
  refine ⟨rfl, rfl, rfl⟩

/-- C6 amended: when the completion supplies no variadic-positional values
but placeholders remain in the stored variadic slot, the attempt raises
IndexError (pop from an empty list) after the dict update has already been
applied; when the completion supplies any variadic-positional values, they
replace the stored slot wholesale, so fewer replacements than placeholders
still dispatches, and unconsumed (excess) supplement values are not an
error either — they are all passed through to `fn`. -/
theorem C6_amended :
    deferred_call sigX base6 [Val.int 0] [] =
      (.error PyErr.popFromEmpty,
       [("x", Slot.val (Val.int 0)), ("args", Slot.tup [Val.ph 1, Val.ph 2])]) ∧
    deferred_call sigX base6 [Val.int 0, Val.int 5] [] =
      (.ok (DCResult.dispatch [Val.int 0, Val.int 5] []),
       [("x", Slot.val (Val.int 0)), ("args", Slot.tup [Val.int 5])]) ∧
    (deferred_call sigX base1 [Val.int 0, Val.int 7, Val.int 8] []).1 =
      .ok (DCResult.dispatch [Val.int 0, Val.int 7, Val.int 8] []) := by
  refine ⟨rfl, rfl, rfl⟩

end DeferSpec

namespace ParamsSpec

open DeferSpec (Val PyErr lookup? hasKey)

/-- C7: registry mutual exclusion — entering any second instance while one
is active raises the already-active error (and performs no state change, so
the first instance stays active), exit unconditionally clears the
class-level slot from any state (the `with` protocol runs it even when the
enclosed scope raised), and from the cleared state a new instance enters
successfully. -/
theorem C7_mutual_exclusion (A B : Registry) (st : RegState) :
    registryEnter (some A) B = .error PyErr.alreadyActive ∧
    registryExit st A = none ∧
    registryEnter none B = .ok (some B) :=
  ⟨rfl, rfl, rfl⟩

/-- C8: lookup by name — with no active instance every lookup fails with
the outside-scope error; with an active instance lacking the name it fails
with the not-set-up error (the two errors are distinct constructors); with
an active instance holding the name it returns the registered value. -/
theorem C8_lookup (r : Registry) (name : String) (s : Strat) :
    registryGet none name = .error (PyErr.outsideScope name) ∧
    (lookup? r.strategies name = none →
      registryGet (some r) name = .error (PyErr.notSetUp name)) ∧
    (lookup? r.strategies name = some s → registryGet (some r) name = .ok s) := by
  refine ⟨rfl, ?_, ?_⟩ <;> intro h <;> simp [registryGet, h]

/-- Scenario B registry holding `a = 7`. -/
def regB : Registry := ⟨0, [("a", Strat.just (Val.int 7))]⟩

/-- C8 witnessed at Scenario B: `a` resolves to 7 while the registry is
active, `b` fails with not-set-up, and after exit `a` fails with the
outside-scope error. -/
theorem C8_lookup_witness :
    registryGet (some regB) "a" = .ok (Strat.just (Val.int 7)) ∧
    registryGet (some regB) "b" = .error (PyErr.notSetUp "b") ∧
    registryGet (registryExit (some regB) regB) "a" =
      .error (PyErr.outsideScope "a") :=
  ⟨(C8_lookup regB "a" (Strat.just (Val.int 7))).2.2 (by decide),
   (C8_lookup regB "b" (Strat.just (Val.int 7))).2.1 (by decide),
   (C8_lookup regB "a" (Strat.just (Val.int 7))).1⟩

/-- C9 counterexample: constructing a registry from `kwargs = (a -> 1)` (a
plain value) and `given_kwargs = (a -> strategy 2)` does not raise the
already-registered error the claim demands for a name appearing in both
mappings: the two dicts are merged first, the `kwargs` entry wins, and the
single surviving entry registers `just(1)` under `a`. -/
theorem C9_counterexample :
    register_param_values [("a", RegVal.plain (Val.int 1))]
      [("a", RegVal.strat (Val.int 2))] =
      .ok [("a", Strat.just (Val.int 1))] ∧
    decide (register_param_values [("a", RegVal.plain (Val.int 1))]
      [("a", RegVal.strat (Val.int 2))] =
      .error (PyErr.alreadyRegistered "a")) = false := by
  refine ⟨rfl, rfl⟩

/-- C9 amended: `_register_param_value` does refuse any name already in the
instance mapping, whatever the values; but the constructor merges the two
input mappings into one dict before registering, with `kwargs` overriding
`given_kwargs` at a shared name, so a name appearing in both mappings is
not a duplicate-registration error — the `kwargs` value silently wins. -/
theorem C9_amended :
    (∀ (d : StratDict) (name : String) (s : Strat), hasKey d name = true →
      register_param_value d name s = .error (PyErr.alreadyRegistered name)) ∧
    register_param_values [("a", RegVal.plain (Val.int 1))]
      [("a", RegVal.strat (Val.int 2))] =
      .ok [("a", Strat.just (Val.int 1))] := by
  constructor
  · intro d name s h
    simp [register_param_value, h]
  · rfl

/-- C9 amended, witnessed: registering `a` a second time on an instance
that already holds `a` raises the already-registered error. -/
theorem C9_amended_witness :
    register_param_value [("a", Strat.just (Val.int 1))] "a"
      (Strat.just (Val.int 1)) = .error (PyErr.alreadyRegistered "a") :=
  C9_amended.1 [("a", Strat.just (Val.int 1))] "a" (Strat.just (Val.int 1))
    (by decide)

/-- C10: exit on any instance unconditionally clears the process-wide
active slot — even when the exiting instance B is distinct from the active
instance A — after which a new enter succeeds, so a non-owning instance can
deactivate the owner's scope. -/
theorem C10_exit_clears (A B : Registry) (h : A ≠ B) :
    registryExit (some A) B = none ∧
    registryEnter (registryExit (some A) B) B = .ok (some B) :=
  ⟨rfl, rfl⟩

/-- C10 witnessed at two distinct concrete instances. -/
theorem C10_exit_clears_witness :
    registryExit (some (⟨0, []⟩ : Registry)) ⟨1, []⟩ = none ∧
    registryEnter (registryExit (some (⟨0, []⟩ : Registry)) ⟨1, []⟩) ⟨1, []⟩ =
      .ok (some ⟨1, []⟩) :=
  C10_exit_clears ⟨0, []⟩ ⟨1, []⟩ (by decide)

end ParamsSpec
